import Mathlib

/-
  Verification development for the session-and-channel subsystem declared in
  src/lib/pomelo.d.ts.  The repository ships only the TypeScript declaration
  file (interfaces and doc comments); the behaviour of every operation is
  therefore modelled from the specification (spec.md) and the doc comments of
  the declarations, and each definition below says so in its doc comment.
-/

namespace Pomelo

/-- Modelled from the spec: a session's `settings` mapping (string to value);
values are represented as strings.  `setAssoc` writes a key, overwriting the
previous value of that key and leaving other keys unchanged. -/
def setAssoc : List (String × String) → String → String → List (String × String)
  | [], k, v => [(k, v)]
  | (k', v') :: rest, k, v =>
      if k' = k then (k, v) :: rest else (k', v') :: setAssoc rest k v

/-- Modelled from the spec: lookup of a key in a `settings` mapping. -/
def getAssoc : List (String × String) → String → Option String
  | [], _ => none
  | (k', v') :: rest, k => if k' = k then some v' else getAssoc rest k

theorem getAssoc_setAssoc_same (l : List (String × String)) (k v : String) :
    getAssoc (setAssoc l k v) k = some v := by
  induction l with
  | nil => simp [setAssoc, getAssoc]
  | cons p rest ih =>
      obtain ⟨a, b⟩ := p
      by_cases h : a = k
      · simp [setAssoc, getAssoc, h]
      · simp [setAssoc, getAssoc, h, ih]

theorem getAssoc_setAssoc_other (l : List (String × String)) (k k' v : String)
    (h : k' ≠ k) : getAssoc (setAssoc l k v) k' = getAssoc l k' := by
  have hkk : ¬ (k = k') := fun hk => h hk.symm
  induction l with
  | nil => simp [setAssoc, getAssoc, hkk]
  | cons p rest ih =>
      obtain ⟨a, b⟩ := p
      by_cases ha : a = k
      · subst ha
        simp [setAssoc, getAssoc, hkk]
      · simp [setAssoc, getAssoc, ha, ih]

theorem find?_map_pres {α : Type} (g : α → α) (p : α → Bool) (l : List α)
    (h : ∀ a, p (g a) = p a) : (l.map g).find? p = (l.find? p).map g := by
  induction l with
  | nil => rfl
  | cons a t ih =>
      cases hp : p a with
      | true => simp [List.find?_cons, h, hp]
      | false => simp [List.find?_cons, h, hp, ih]

/-- Modelled from the spec: one channel membership entry, a (uid,
frontend-server-id) pair; `sid` holds the frontend server id the user is
connected to, as resolved at `add` time. -/
structure Member where
  uid : String
  sid : String
deriving DecidableEq, Repr

/-- Modelled from the spec: a Channel is a named, process-local membership set
keyed by uid, plus a destroyed flag (operations against a destroyed channel
fail). -/
structure Channel where
  name : String
  destroyed : Bool
  members : List Member
deriving DecidableEq, Repr

/-- Modelled from the spec: `Channel.add(uid, sid)` records
(uid, frontend-resolved-from-sid); adding an existing uid replaces its
frontendId (idempotent-and-reassigning, not rejecting); returns false on a
destroyed channel or when the sid does not resolve to a known connection
(the empty string stands for an unresolvable sid). -/
def Channel.add (ch : Channel) (uid sid : String) : Bool × Channel :=
  if ch.destroyed then (false, ch)
  else if sid = "" then (false, ch)
  else if ch.members.any (fun m => decide (m.uid = uid)) then
    let ms := ch.members.map (fun m => if m.uid = uid then { m with sid := sid } else m)
    (true, { ch with members := ms })
  else
    (true, { ch with members := ch.members ++ [⟨uid, sid⟩] })

/-- Modelled from the spec: `Channel.leave(uid, sid)` removes the membership
only if the stored frontendId matches the given sid's frontend; returns false
otherwise, leaving the membership set unchanged. -/
def Channel.leave (ch : Channel) (uid sid : String) : Bool × Channel :=
  match ch.members.find? (fun m => decide (m.uid = uid)) with
  | none => (false, ch)
  | some m =>
      if m.sid = sid then
        (true, { ch with members := ch.members.filter (fun m => decide (m.uid ≠ uid)) })
      else (false, ch)

/-- Modelled from the spec: `Channel.getMember(uid)` returns the member info
recorded for the uid, or nothing when the uid is not a member. -/
def Channel.getMember (ch : Channel) (uid : String) : Option Member :=
  ch.members.find? (fun m => decide (m.uid = uid))

/-- Modelled from the spec: `Channel.getMembers()` returns the uid list. -/
def Channel.getMembers (ch : Channel) : List String :=
  ch.members.map Member.uid

/-- The membership invariant: no two entries share a uid. -/
def Channel.noDupUids (ch : Channel) : Prop :=
  (ch.members.map Member.uid).Nodup

/-- Modelled from the spec: one push-by-uids remote call issued during
fan-out, addressed to one frontend server and batching all uids destined
for it. -/
structure PushCall where
  target : String
  route : String
  msg : String
  uids : List String
deriving DecidableEq, Repr

/-- Modelled from the spec: the partition step of the broadcast algorithm —
partition a membership list by frontendId and build one push-by-uids call per
distinct frontendId, batching all uids destined for that frontend. -/
def groupCalls (route msg : String) (members : List Member) : List PushCall :=
  ((members.map Member.sid).dedup).map
    (fun f => ⟨f, route, msg, (members.filter (fun m => decide (m.sid = f))).map Member.uid⟩)

/-- Modelled from the spec: the outcome reported by fan-out — either no error
(all partitions delivered) or an aggregated error listing the failed frontend
partitions; `delivered` records the partitions whose remote call succeeded
(they are never rolled back). -/
structure PushOutcome where
  err : Option (List String)
  delivered : List PushCall
deriving DecidableEq, Repr

/-- Modelled from the spec: the fan-out step shared by `Channel.pushMessage`
and `ChannelService.pushMessageByUids` — issue each call, collect the failed
frontend ids, and declare success only if every partition succeeds.  The
remote layer is abstracted by the per-frontend failure oracle `fail`. -/
def runPush (fail : String → Bool) (calls : List PushCall) : PushOutcome :=
  let failed := (calls.filter (fun c => fail c.target)).map PushCall.target
  { err := if failed = [] then none else some failed
    delivered := calls.filter (fun c => !fail c.target) }

/-- Modelled from the spec: `Channel.pushMessage(route, msg, opts, cb)` — the
broadcast algorithm over the channel's membership set. -/
def Channel.pushMessage (ch : Channel) (fail : String → Bool) (route msg : String) :
    PushOutcome :=
  runPush fail (groupCalls route msg ch.members)

/-- Modelled from the spec: one receiver entry of
`ChannelService.pushMessageByUids`; `sid = none` stands for an entry whose
session id cannot be resolved to a live frontend connection. -/
structure UidSid where
  uid : String
  sid : Option String
deriving DecidableEq, Repr

/-- Modelled from the spec: the resolution step of `pushMessageByUids` — any
uid entry whose sid cannot be resolved is dropped silently. -/
def resolveEntries (entries : List UidSid) : List Member :=
  entries.filterMap (fun e => e.sid.map (fun s => Member.mk e.uid s))

/-- Modelled from the spec: `ChannelService.pushMessageByUids(route, msg,
uids, opts, cb)` — the same partition-and-fan-out algorithm as
`Channel.pushMessage`, applied to an explicit receiver list after dropping
unresolvable entries. -/
def pushMessageByUids (fail : String → Bool) (route msg : String)
    (entries : List UidSid) : PushOutcome :=
  runPush fail (groupCalls route msg (resolveEntries entries))

/-- Modelled from the spec: the authoritative Session record held by a
frontend process — id, owning frontend id, the bound uid (at most one) and
the settings mapping. -/
structure Session where
  id : String
  frontendId : String
  uid : Option String
  settings : List (String × String)
deriving DecidableEq, Repr

/-- Modelled from the spec: one frontend process, owning its live sessions. -/
structure Frontend where
  id : String
  sessions : List Session
deriving DecidableEq, Repr

/-- Modelled from the spec: the distributed state visible to remote calls —
the frontend processes and the sessions each owns. -/
structure World where
  frontends : List Frontend
deriving DecidableEq, Repr

def World.findSession (w : World) (fid sid : String) : Option Session :=
  match w.frontends.find? (fun f => decide (f.id = fid)) with
  | none => none
  | some f => f.sessions.find? (fun s => decide (s.id = sid))

def World.updateSession (w : World) (fid sid : String) (upd : Session → Session) :
    World :=
  ⟨w.frontends.map (fun f =>
    if f.id = fid then
      { f with sessions := f.sessions.map (fun s => if s.id = sid then upd s else s) }
    else f)⟩

/-- Modelled from the spec: the BackendSession local copy of a remote
Session's bindable fields, owned by a backend process. -/
structure BackendSession where
  id : String
  frontendId : String
  uid : Option String
  settings : List (String × String)
deriving DecidableEq, Repr

/-- Modelled from the spec: the error kinds a remote call surfaces through
the callback's error argument. -/
inductive RemoteErr where
  | remoteUnreachable
  | sessionNotFound
  | invalidBindState
deriving DecidableEq, Repr

/-- Modelled from the spec: a record of one remote call issued to a frontend
process (which frontend it targets and which operation it carries). -/
structure CallRec where
  target : String
  kind : String
deriving DecidableEq, Repr

/-- Modelled from the spec: the observable result of a BackendSession
operation — the callback error argument (none on success), the resulting
distributed state, the resulting local copy, and the remote calls issued. -/
structure OpResult where
  err : Option RemoteErr
  world : World
  bs : BackendSession
  calls : List CallRec
deriving Repr

/-- Modelled from the spec: `BackendSession.get(key)` reads the local copy. -/
def BackendSession.get (bs : BackendSession) (k : String) : Option String :=
  getAssoc bs.settings k

/-- Modelled from the spec: `BackendSession.set(key, value)` mutates only the
local copy's settings; it issues no remote call and leaves the remote state
untouched. -/
def BackendSession.set (bs : BackendSession) (w : World) (k v : String) : OpResult :=
  ⟨none, w, { bs with settings := setAssoc bs.settings k v }, []⟩

/-- Modelled from the spec: `BackendSession.push(key, cb)` issues one remote
call to the owning frontend sending the single local key's current value,
which overwrites whatever value the frontend holds for that key
(last-write-wins).  An unreachable frontend or a missing remote session is
surfaced as an error with the state unchanged. -/
def BackendSession.push (reach : String → Bool) (bs : BackendSession) (w : World)
    (k : String) : OpResult :=
  if reach bs.frontendId then
    match w.findSession bs.frontendId bs.id with
    | none => ⟨some .sessionNotFound, w, bs, [⟨bs.frontendId, "push"⟩]⟩
    | some _ =>
        match getAssoc bs.settings k with
        | none => ⟨none, w, bs, [⟨bs.frontendId, "push"⟩]⟩
        | some v =>
            ⟨none,
             w.updateSession bs.frontendId bs.id
               (fun s => { s with settings := setAssoc s.settings k v }),
             bs, [⟨bs.frontendId, "push"⟩]⟩
  else ⟨some .remoteUnreachable, w, bs, [⟨bs.frontendId, "push"⟩]⟩

/-- Modelled from the spec: applying every locally-set key to a remote
settings mapping, in order. -/
def applySettings (remote upd : List (String × String)) : List (String × String) :=
  upd.foldl (fun acc kv => setAssoc acc kv.1 kv.2) remote

/-- Modelled from the spec: `BackendSession.pushAll(cb)` pushes every
locally-set key in one remote call; on failure none of the keys is applied
remotely and the local copy is unchanged. -/
def BackendSession.pushAll (reach : String → Bool) (bs : BackendSession) (w : World) :
    OpResult :=
  if reach bs.frontendId then
    match w.findSession bs.frontendId bs.id with
    | none => ⟨some .sessionNotFound, w, bs, [⟨bs.frontendId, "pushAll"⟩]⟩
    | some _ =>
        ⟨none,
         w.updateSession bs.frontendId bs.id
           (fun s => { s with settings := applySettings s.settings bs.settings }),
         bs, [⟨bs.frontendId, "pushAll"⟩]⟩
  else ⟨some .remoteUnreachable, w, bs, [⟨bs.frontendId, "pushAll"⟩]⟩

/-- Modelled from the spec: `BackendSession.bind(uid, cb)` is not local-only —
it immediately issues a remote call pushing the uid to the owning frontend and
binds the uid on the remote Session (which fails if a uid is already bound);
on success the local copy's uid is updated as well. -/
def BackendSession.bind (reach : String → Bool) (bs : BackendSession) (w : World)
    (uid : String) : OpResult :=
  if reach bs.frontendId then
    match w.findSession bs.frontendId bs.id with
    | none => ⟨some .sessionNotFound, w, bs, [⟨bs.frontendId, "bind"⟩]⟩
    | some s =>
        match s.uid with
        | some _ => ⟨some .invalidBindState, w, bs, [⟨bs.frontendId, "bind"⟩]⟩
        | none =>
            ⟨none,
             w.updateSession bs.frontendId bs.id (fun t => { t with uid := some uid }),
             { bs with uid := some uid }, [⟨bs.frontendId, "bind"⟩]⟩
  else ⟨some .remoteUnreachable, w, bs, [⟨bs.frontendId, "bind"⟩]⟩

/-- Modelled from the spec: `BackendSession.unbind(uid, cb)` is not
local-only — it immediately issues a remote call unbinding the uid from the
remote Session (which fails if the bound uid does not match); on success the
local copy's uid is cleared as well. -/
def BackendSession.unbind (reach : String → Bool) (bs : BackendSession) (w : World)
    (uid : String) : OpResult :=
  if reach bs.frontendId then
    match w.findSession bs.frontendId bs.id with
    | none => ⟨some .sessionNotFound, w, bs, [⟨bs.frontendId, "unbind"⟩]⟩
    | some s =>
        if s.uid = some uid then
          ⟨none,
           w.updateSession bs.frontendId bs.id (fun t => { t with uid := none }),
           { bs with uid := none }, [⟨bs.frontendId, "unbind"⟩]⟩
        else ⟨some .invalidBindState, w, bs, [⟨bs.frontendId, "unbind"⟩]⟩
  else ⟨some .remoteUnreachable, w, bs, [⟨bs.frontendId, "unbind"⟩]⟩

/-- Modelled from the spec: `BackendSessionService.get(frontendId, sid, cb)` —
materialize a fresh BackendSession snapshot from the remote Session. -/
def fetch (w : World) (fid sid : String) : Option BackendSession :=
  (w.findSession fid sid).map (fun s => ⟨s.id, s.frontendId, s.uid, s.settings⟩)

/-- Modelled from the spec: frontend-side `Session.bind(uid)` — fails with
InvalidBindState if a uid is already bound (re-binding without unbinding is an
error). -/
def Session.bind (s : Session) (uid : String) : Except RemoteErr Session :=
  match s.uid with
  | some _ => .error .invalidBindState
  | none => .ok { s with uid := some uid }

/-- Modelled from the spec: frontend-side `Session.unbind(uid)` — fails if
the bound uid does not match the given one. -/
def Session.unbind (s : Session) (uid : String) : Except RemoteErr Session :=
  if s.uid = some uid then .ok { s with uid := none }
  else .error .invalidBindState

/-- Modelled from the spec: `SessionService.getByUid(uid)` — the sessions of
the frontend process currently bound to the uid. -/
def getByUid (sessions : List Session) (uid : String) : List Session :=
  sessions.filter (fun s => decide (s.uid = some uid))

/-- Modelled from the spec: binding a uid onto the session with the given
session id inside a frontend process's session registry. -/
def serviceBind (sessions : List Session) (sid uid : String) :
    Except RemoteErr (List Session) :=
  match sessions.find? (fun s => decide (s.id = sid)) with
  | none => .error .sessionNotFound
  | some s =>
      match s.bind uid with
      | .error e => .error e
      | .ok s' => .ok (sessions.map (fun t => if t.id = sid then s' else t))

/-- Modelled from the spec: unbinding a uid from the session with the given
session id inside a frontend process's session registry. -/
def serviceUnbind (sessions : List Session) (sid uid : String) :
    Except RemoteErr (List Session) :=
  match sessions.find? (fun s => decide (s.id = sid)) with
  | none => .error .sessionNotFound
  | some s =>
      match s.unbind uid with
      | .error e => .error e
      | .ok s' => .ok (sessions.map (fun t => if t.id = sid then s' else t))

/-- Modelled from the spec: a disconnect removes the session from the
frontend process's registry. -/
def serviceDisconnect (sessions : List Session) (sid : String) : List Session :=
  sessions.filter (fun s => decide (s.id ≠ sid))

theorem map_uid_reassign (l : List Member) (u s : String) :
    (l.map (fun m => if m.uid = u then { m with sid := s } else m)).map Member.uid
      = l.map Member.uid := by
  induction l with
  | nil => rfl
  | cons m t ih =>
      by_cases h : m.uid = u
      · simp [h, ih]
      · simp [h, ih]

theorem filter_uid_reassign (l : List Member) (u s : String) :
    (l.map (fun m => if m.uid = u then { m with sid := s } else m)).filter
        (fun m => decide (m.uid = u))
      = (l.filter (fun m => decide (m.uid = u))).map (fun m => { m with sid := s }) := by
  induction l with
  | nil => rfl
  | cons m t ih =>
      by_cases h : m.uid = u
      · simp [List.filter_cons, h, ih]
      · simp [List.filter_cons, h, ih]

theorem find?_uid_reassign (l : List Member) (u s : String) :
    (l.map (fun m => if m.uid = u then { m with sid := s } else m)).find?
        (fun m => decide (m.uid = u))
      = (l.find? (fun m => decide (m.uid = u))).map (fun m => { m with sid := s }) := by
  induction l with
  | nil => rfl
  | cons m t ih =>
      by_cases h : m.uid = u
      · simp [List.find?_cons, h]
      · simp [List.find?_cons, h, ih]

theorem filter_uid_eq_nil (l : List Member) (u : String)
    (h : u ∉ l.map Member.uid) : l.filter (fun m => decide (m.uid = u)) = [] := by
  rw [List.filter_eq_nil_iff]
  intro m hm
  simp only [decide_eq_true_eq]
  intro hmu
  exact h (hmu ▸ List.mem_map_of_mem Member.uid hm)

theorem find?_uid_eq_none (l : List Member) (u : String)
    (h : u ∉ l.map Member.uid) : l.find? (fun m => decide (m.uid = u)) = none := by
  rw [List.find?_eq_none]
  intro m hm
  simp only [decide_eq_true_eq]
  intro hmu
  exact h (hmu ▸ List.mem_map_of_mem Member.uid hm)

theorem find?_append_none {α : Type} (p : α → Bool) (l₁ l₂ : List α)
    (h : l₁.find? p = none) : (l₁ ++ l₂).find? p = l₂.find? p := by
  induction l₁ with
  | nil => rfl
  | cons a t ih =>
      cases hp : p a with
      | true => simp [List.find?_cons, hp] at h
      | false =>
          rw [List.find?_cons, hp] at h
          rw [List.cons_append, List.find?_cons, hp]
          exact ih h

theorem filter_uid_of_nodup (l : List Member) (u : String)
    (h : (l.map Member.uid).Nodup) :
    l.filter (fun m => decide (m.uid = u)) = []
      ∨ ∃ s, l.filter (fun m => decide (m.uid = u)) = [⟨u, s⟩] := by
  induction l with
  | nil => exact Or.inl rfl
  | cons m t ih =>
      rw [List.map_cons, List.nodup_cons] at h
      obtain ⟨hnm, hnd⟩ := h
      by_cases hm : m.uid = u
      · right
        refine ⟨m.sid, ?_⟩
        have ht : t.filter (fun x => decide (x.uid = u)) = [] :=
          filter_uid_eq_nil t u (hm ▸ hnm)
        obtain ⟨mu, ms⟩ := m
        simp only at hm
        subst hm
        simp [List.filter_cons, ht]
      · rcases ih hnd with h0 | ⟨s, hs⟩
        · exact Or.inl (by simp [List.filter_cons, hm, h0])
        · exact Or.inr ⟨s, by simp [List.filter_cons, hm, hs]⟩

theorem any_uid_of_mem (l : List Member) (u : String) (m : Member)
    (hm : m ∈ l) (hu : m.uid = u) :
    l.any (fun x => decide (x.uid = u)) = true :=
  List.any_eq_true.mpr ⟨m, hm, by simp [hu]⟩

theorem Channel.add_members_reassign (ch : Channel) (u s : String)
    (hd : ch.destroyed = false) (hs : s ≠ "")
    (ha : ch.members.any (fun m => decide (m.uid = u)) = true) :
    ((ch.add u s).2).members
      = ch.members.map (fun m => if m.uid = u then { m with sid := s } else m) := by
  simp [Channel.add, hd, hs, ha]

theorem Channel.add_members_append (ch : Channel) (u s : String)
    (hd : ch.destroyed = false) (hs : s ≠ "")
    (ha : ¬ ch.members.any (fun m => decide (m.uid = u)) = true) :
    ((ch.add u s).2).members = ch.members ++ [⟨u, s⟩] := by
  simp only [Channel.add, hd, Bool.false_eq_true, if_false, hs, if_neg hs]
  rw [if_neg ha]

theorem Channel.add_destroyed (ch : Channel) (u s : String) :
    ((ch.add u s).2).destroyed = ch.destroyed := by
  unfold Channel.add
  by_cases hd : ch.destroyed
  · simp [hd]
  · by_cases hs : s = ""
    · simp [hd, hs]
    · by_cases ha : ch.members.any (fun m => decide (m.uid = u)) = true
      · simp [hd, hs, ha]
      · simp [hd, hs, ha]

theorem Channel.add_noDupUids (ch : Channel) (u s : String) (h : ch.noDupUids) :
    ((ch.add u s).2).noDupUids := by
  by_cases hd : ch.destroyed
  · simp [Channel.add, hd, h]
  by_cases hs : s = ""
  · simp [Channel.add, hd, hs, h]
  have hd' : ch.destroyed = false := by simpa using hd
  by_cases ha : ch.members.any (fun m => decide (m.uid = u)) = true
  · have hm := Channel.add_members_reassign ch u s hd' hs ha
    simp only [Channel.noDupUids] at h ⊢
    rw [hm, map_uid_reassign]
    exact h
  · have hnotin : u ∉ ch.members.map Member.uid := by
      intro hin
      obtain ⟨m, hm, hmu⟩ := List.mem_map.mp hin
      exact ha (any_uid_of_mem ch.members u m hm hmu)
    have hm := Channel.add_members_append ch u s hd' hs ha
    simp only [Channel.noDupUids] at h ⊢
    rw [hm]
    simp [List.nodup_append, h, hnotin]

theorem Channel.leave_eq_none (ch : Channel) (u s : String)
    (hf : ch.members.find? (fun x => decide (x.uid = u)) = none) :
    ch.leave u s = (false, ch) := by
  unfold Channel.leave
  rw [hf]

theorem Channel.leave_eq_some (ch : Channel) (u s : String) (m : Member)
    (hf : ch.members.find? (fun x => decide (x.uid = u)) = some m) :
    ch.leave u s
      = if m.sid = s
        then (true, { ch with members := ch.members.filter (fun x => decide (x.uid ≠ u)) })
        else (false, ch) := by
  unfold Channel.leave
  rw [hf]

theorem Channel.leave_noDupUids (ch : Channel) (u s : String) (h : ch.noDupUids) :
    ((ch.leave u s).2).noDupUids := by
  cases hf : ch.members.find? (fun m => decide (m.uid = u)) with
  | none => rw [Channel.leave_eq_none ch u s hf]; exact h
  | some m =>
      rw [Channel.leave_eq_some ch u s m hf]
      by_cases hms : m.sid = s
      · simp only [hms, if_pos rfl]
        simp only [Channel.noDupUids] at h ⊢
        exact List.Nodup.sublist
          (List.Sublist.map Member.uid (List.filter_sublist ch.members)) h
      · simp [hms, h]

/-- Claim C6: the membership set never contains two entries with the same uid, the
invariant is preserved by add and leave, and a second add of the same uid
reassigns the frontendId: add(uid, sidA) followed by add(uid, sidB) leaves
exactly one membership entry for uid, bound to sidB. -/
theorem channel_membership_unique_reassign (ch : Channel) (u su sl sidA sidB : String)
    (hnd : ch.noDupUids) :
    ((ch.add u su).2).noDupUids ∧
    ((ch.leave u sl).2).noDupUids ∧
    (ch.destroyed = false → sidA ≠ "" → sidB ≠ "" →
      (((ch.add u sidA).2.add u sidB).2).members.filter (fun m => decide (m.uid = u))
          = [⟨u, sidB⟩] ∧
      (((ch.add u sidA).2.add u sidB).2).noDupUids) := by
  refine ⟨Channel.add_noDupUids ch u su hnd, Channel.leave_noDupUids ch u sl hnd, ?_⟩
  intro hd hA hB
  refine ⟨?_, Channel.add_noDupUids _ u sidB (Channel.add_noDupUids ch u sidA hnd)⟩
  have hd1 : ((ch.add u sidA).2).destroyed = false := by
    rw [Channel.add_destroyed]; exact hd
  by_cases ha : ch.members.any (fun m => decide (m.uid = u)) = true
  · -- uid already present: both adds reassign
    have h1 := Channel.add_members_reassign ch u sidA hd hA ha
    have ha2 : ((ch.add u sidA).2).members.any (fun m => decide (m.uid = u)) = true := by
      obtain ⟨m, hm, hmu⟩ := List.any_eq_true.mp ha
      simp only [decide_eq_true_eq] at hmu
      rw [h1]
      refine any_uid_of_mem _ u { m with sid := sidA } ?_ (by simpa using hmu)
      have heq : (fun x => if x.uid = u then { x with sid := sidA } else x) m
          = { m with sid := sidA } := by simp [hmu]
      exact heq ▸ List.mem_map_of_mem _ hm
    have h2 := Channel.add_members_reassign (ch.add u sidA).2 u sidB hd1 hB ha2
    rw [h2, h1, filter_uid_reassign, filter_uid_reassign]
    obtain ⟨m, hm, hmu⟩ := List.any_eq_true.mp ha
    simp only [decide_eq_true_eq] at hmu
    rcases filter_uid_of_nodup ch.members u hnd with h0 | ⟨s0, hs0⟩
    · exfalso
      have hmem : m ∈ ch.members.filter (fun x => decide (x.uid = u)) :=
        List.mem_filter.mpr ⟨hm, by simp [hmu]⟩
      rw [h0] at hmem
      exact absurd hmem (List.not_mem_nil m)
    · rw [hs0]
      rfl
  · -- uid absent: first add appends, second add reassigns
    have hnotin : u ∉ ch.members.map Member.uid := by
      intro hin
      obtain ⟨m, hm, hmu⟩ := List.mem_map.mp hin
      exact ha (any_uid_of_mem ch.members u m hm hmu)
    have h1 := Channel.add_members_append ch u sidA hd hA ha
    have ha2 : ((ch.add u sidA).2).members.any (fun m => decide (m.uid = u)) = true := by
      rw [h1]
      exact any_uid_of_mem _ u ⟨u, sidA⟩ (by simp) rfl
    have h2 := Channel.add_members_reassign (ch.add u sidA).2 u sidB hd1 hB ha2
    rw [h2, h1, filter_uid_reassign, List.filter_append,
      filter_uid_eq_nil ch.members u hnotin]
    simp

/-- Claim C7: leave(uid, sid) removes the membership entry only when the stored
frontendId matches the given sid's frontend; on a mismatch it returns false
and the membership set is unchanged. -/
theorem channel_leave_requires_matching_frontend (ch : Channel) (u s : String)
    (m : Member) (hm : ch.getMember u = some m) :
    (m.sid ≠ s → ch.leave u s = (false, ch)) ∧
    (m.sid = s → (ch.leave u s).1 = true ∧
      ((ch.leave u s).2).members = ch.members.filter (fun x => decide (x.uid ≠ u))) := by
  unfold Channel.getMember at hm
  constructor
  · intro hne
    rw [Channel.leave_eq_some ch u s m hm]
    simp [hne]
  · intro heq
    rw [Channel.leave_eq_some ch u s m hm]
    simp [heq]

/-- Claim C10: getMember(uid) returns the membership entry recorded by the most
recent successful add for a current member, and returns nothing for a uid
that was never added or whose entry was removed by a successful leave. -/
theorem channel_getMember_spec (ch : Channel) (u s : String) :
    (ch.destroyed = false → s ≠ "" → ((ch.add u s).2).getMember u = some ⟨u, s⟩) ∧
    (u ∉ ch.members.map Member.uid → ch.getMember u = none) ∧
    (∀ m, ch.getMember u = some m → m.sid = s →
      ((ch.leave u s).2).getMember u = none) := by
  refine ⟨?_, ?_, ?_⟩
  · intro hd hs
    unfold Channel.getMember
    by_cases ha : ch.members.any (fun m => decide (m.uid = u)) = true
    · rw [Channel.add_members_reassign ch u s hd hs ha, find?_uid_reassign]
      obtain ⟨m, hm, hmu⟩ := List.any_eq_true.mp ha
      simp only [decide_eq_true_eq] at hmu
      cases hf : ch.members.find? (fun x => decide (x.uid = u)) with
      | none =>
          exfalso
          have hmf := List.find?_eq_none.mp hf m hm
          simp [hmu] at hmf
      | some m0 =>
          have hm0 : m0.uid = u := by
            have hp := List.find?_some hf
            simpa using hp
          obtain ⟨m0u, m0s⟩ := m0
          simp only at hm0
          subst hm0
          rfl
    · rw [Channel.add_members_append ch u s hd hs ha]
      have hnotin : u ∉ ch.members.map Member.uid := by
        intro hin
        obtain ⟨m, hm, hmu⟩ := List.mem_map.mp hin
        exact ha (any_uid_of_mem ch.members u m hm hmu)
      rw [find?_append_none _ _ _ (find?_uid_eq_none ch.members u hnotin)]
      simp [List.find?_cons]
  · exact fun h => find?_uid_eq_none ch.members u h
  · intro m hm hms
    unfold Channel.getMember at hm
    rw [Channel.leave_eq_some ch u s m hm]
    simp only [hms, if_pos rfl]
    unfold Channel.getMember
    rw [List.find?_eq_none]
    intro x hx
    have hxu := (List.mem_filter.mp hx).2
    simp only [decide_eq_true_eq] at hxu ⊢
    exact hxu

theorem groupCalls_map_target (route msg : String) (members : List Member) :
    (groupCalls route msg members).map PushCall.target
      = (members.map Member.sid).dedup := by
  simp only [groupCalls, List.map_map]
  show List.map id ((members.map Member.sid).dedup) = (members.map Member.sid).dedup
  exact List.map_id _

/-- Claim C1: pushMessage partitions the membership set by frontendId, issues
exactly one push-by-uids remote call per distinct frontendId batching all
uids destined for that frontend, succeeds iff every partition succeeds, and
on partial failure reports an aggregated error naming exactly the failed
frontend partitions while the successful partitions stay delivered. -/
theorem channel_pushMessage_partitions (ch : Channel) (fail : String → Bool)
    (route msg : String) (hne : ch.members ≠ []) :
    ((groupCalls route msg ch.members).map PushCall.target).Nodup ∧
    (∀ f, f ∈ (groupCalls route msg ch.members).map PushCall.target
      ↔ f ∈ ch.members.map Member.sid) ∧
    (∀ c ∈ groupCalls route msg ch.members,
      c.uids = (ch.members.filter (fun m => decide (m.sid = c.target))).map Member.uid
        ∧ c.route = route ∧ c.msg = msg) ∧
    ((ch.pushMessage fail route msg).err = none
      ↔ ∀ c ∈ groupCalls route msg ch.members, fail c.target = false) ∧
    (∀ failed, (ch.pushMessage fail route msg).err = some failed →
      failed = ((groupCalls route msg ch.members).filter
          (fun c => fail c.target)).map PushCall.target ∧ failed ≠ []) ∧
    ((ch.pushMessage fail route msg).delivered
      = (groupCalls route msg ch.members).filter (fun c => !fail c.target)) := by
  have herr : (ch.pushMessage fail route msg).err
      = (if ((groupCalls route msg ch.members).filter
              (fun c => fail c.target)).map PushCall.target = []
         then none
         else some (((groupCalls route msg ch.members).filter
              (fun c => fail c.target)).map PushCall.target)) := rfl
  have hiff : (((groupCalls route msg ch.members).filter
        (fun c => fail c.target)).map PushCall.target = [])
      ↔ ∀ c ∈ groupCalls route msg ch.members, fail c.target = false := by
    rw [List.map_eq_nil_iff, List.filter_eq_nil_iff]
    constructor
    · intro h c hc
      have hcc := h c hc
      simpa using hcc
    · intro h c hc
      simp [h c hc]
  refine ⟨?_, ?_, ?_, ?_, ?_, rfl⟩
  · rw [groupCalls_map_target]
    exact List.nodup_dedup _
  · intro f
    rw [groupCalls_map_target, List.mem_dedup]
  · intro c hc
    obtain ⟨f, hf, rfl⟩ := List.mem_map.mp hc
    exact ⟨rfl, rfl, rfl⟩
  · rw [herr]
    constructor
    · intro h
      by_cases hfd : ((groupCalls route msg ch.members).filter
          (fun c => fail c.target)).map PushCall.target = []
      · exact hiff.mp hfd
      · rw [if_neg hfd] at h
        exact absurd h (by simp)
    · intro h
      rw [if_pos (hiff.mpr h)]
  · intro failed h
    rw [herr] at h
    by_cases hfd : ((groupCalls route msg ch.members).filter
        (fun c => fail c.target)).map PushCall.target = []
    · rw [if_pos hfd] at h
      exact absurd h (by simp)
    · rw [if_neg hfd] at h
      have hff := Option.some.inj h
      exact ⟨hff.symm, hff ▸ hfd⟩

/-- Claim C9: pushMessageByUids applies the same partition-and-fan-out algorithm as
Channel.pushMessage to an explicit receiver list, and any entry whose sid
cannot be resolved is silently excluded from all partitions without causing
the overall call to fail. -/
theorem pushMessageByUids_drops_unresolvable (fail : String → Bool)
    (route msg : String) (entries : List UidSid) (e : UidSid) :
    (pushMessageByUids fail route msg entries
      = runPush fail (groupCalls route msg (resolveEntries entries))) ∧
    (e.sid = none →
      resolveEntries (e :: entries) = resolveEntries entries ∧
      pushMessageByUids fail route msg (e :: entries)
        = pushMessageByUids fail route msg entries) ∧
    (∀ (nm : String) (d : Bool) (members : List Member),
      pushMessageByUids fail route msg (members.map (fun m => ⟨m.uid, some m.sid⟩))
        = Channel.pushMessage ⟨nm, d, members⟩ fail route msg) := by
  refine ⟨rfl, ?_, ?_⟩
  · intro he
    have hres : resolveEntries (e :: entries) = resolveEntries entries := by
      simp [resolveEntries, List.filterMap_cons, he]
    exact ⟨hres, by simp [pushMessageByUids, hres]⟩
  · intro nm d members
    have hres : resolveEntries (members.map (fun m => ⟨m.uid, some m.sid⟩))
        = members := by
      simp only [resolveEntries, List.filterMap_map]
      show List.filterMap some members = members
      exact List.filterMap_some members
    simp [pushMessageByUids, Channel.pushMessage, hres]

theorem findSession_updateSession (w : World) (fid sid : String)
    (upd : Session → Session) (hupd : ∀ s, (upd s).id = s.id) :
    (w.updateSession fid sid upd).findSession fid sid
      = (w.findSession fid sid).map upd := by
  unfold World.findSession World.updateSession
  rw [find?_map_pres]
  · cases hf : w.frontends.find? (fun f => decide (f.id = fid)) with
    | none => rfl
    | some f =>
        have hfid : f.id = fid := by
          have hp := List.find?_some hf
          simpa using hp
        simp only [Option.map_some']
        rw [if_pos hfid]
        simp only
        rw [find?_map_pres]
        · cases hs : f.sessions.find? (fun s => decide (s.id = sid)) with
          | none => rfl
          | some s0 =>
              have hsid : s0.id = sid := by
                have hp := List.find?_some hs
                simpa using hp
              simp only [Option.map_some']
              rw [if_pos hsid]
        · intro s
          by_cases h : s.id = sid
          · simp [h, hupd s]
          · simp [h]
  · intro f
    by_cases h : f.id = fid
    · simp [h]
    · simp [h]

theorem BackendSession.push_unreach (reach : String → Bool) (bs : BackendSession)
    (w : World) (k : String) (hr : reach bs.frontendId = false) :
    BackendSession.push reach bs w k
      = ⟨some .remoteUnreachable, w, bs, [⟨bs.frontendId, "push"⟩]⟩ := by
  unfold BackendSession.push
  rw [if_neg (by simp [hr])]

theorem BackendSession.push_notfound (reach : String → Bool) (bs : BackendSession)
    (w : World) (k : String) (hr : reach bs.frontendId = true)
    (hf : w.findSession bs.frontendId bs.id = none) :
    BackendSession.push reach bs w k
      = ⟨some .sessionNotFound, w, bs, [⟨bs.frontendId, "push"⟩]⟩ := by
  unfold BackendSession.push
  rw [if_pos hr, hf]

theorem BackendSession.push_nokey (reach : String → Bool) (bs : BackendSession)
    (w : World) (k : String) (hr : reach bs.frontendId = true) (s : Session)
    (hf : w.findSession bs.frontendId bs.id = some s)
    (hv : getAssoc bs.settings k = none) :
    BackendSession.push reach bs w k = ⟨none, w, bs, [⟨bs.frontendId, "push"⟩]⟩ := by
  unfold BackendSession.push
  rw [if_pos hr, hf, hv]

theorem BackendSession.push_ok (reach : String → Bool) (bs : BackendSession)
    (w : World) (k : String) (hr : reach bs.frontendId = true) (s : Session)
    (hf : w.findSession bs.frontendId bs.id = some s) (v : String)
    (hv : getAssoc bs.settings k = some v) :
    BackendSession.push reach bs w k
      = ⟨none,
         w.updateSession bs.frontendId bs.id
           (fun t => { t with settings := setAssoc t.settings k v }),
         bs, [⟨bs.frontendId, "push"⟩]⟩ := by
  unfold BackendSession.push
  rw [if_pos hr, hf, hv]

theorem BackendSession.pushAll_unreach (reach : String → Bool) (bs : BackendSession)
    (w : World) (hr : reach bs.frontendId = false) :
    BackendSession.pushAll reach bs w
      = ⟨some .remoteUnreachable, w, bs, [⟨bs.frontendId, "pushAll"⟩]⟩ := by
  unfold BackendSession.pushAll
  rw [if_neg (by simp [hr])]

theorem BackendSession.pushAll_notfound (reach : String → Bool) (bs : BackendSession)
    (w : World) (hr : reach bs.frontendId = true)
    (hf : w.findSession bs.frontendId bs.id = none) :
    BackendSession.pushAll reach bs w
      = ⟨some .sessionNotFound, w, bs, [⟨bs.frontendId, "pushAll"⟩]⟩ := by
  unfold BackendSession.pushAll
  rw [if_pos hr, hf]

theorem BackendSession.pushAll_ok (reach : String → Bool) (bs : BackendSession)
    (w : World) (hr : reach bs.frontendId = true) (s : Session)
    (hf : w.findSession bs.frontendId bs.id = some s) :
    BackendSession.pushAll reach bs w
      = ⟨none,
         w.updateSession bs.frontendId bs.id
           (fun t => { t with settings := applySettings t.settings bs.settings }),
         bs, [⟨bs.frontendId, "pushAll"⟩]⟩ := by
  unfold BackendSession.pushAll
  rw [if_pos hr, hf]

theorem BackendSession.bind_unreach (reach : String → Bool) (bs : BackendSession)
    (w : World) (uid : String) (hr : reach bs.frontendId = false) :
    BackendSession.bind reach bs w uid
      = ⟨some .remoteUnreachable, w, bs, [⟨bs.frontendId, "bind"⟩]⟩ := by
  unfold BackendSession.bind
  rw [if_neg (by simp [hr])]

theorem BackendSession.bind_notfound (reach : String → Bool) (bs : BackendSession)
    (w : World) (uid : String) (hr : reach bs.frontendId = true)
    (hf : w.findSession bs.frontendId bs.id = none) :
    BackendSession.bind reach bs w uid
      = ⟨some .sessionNotFound, w, bs, [⟨bs.frontendId, "bind"⟩]⟩ := by
  unfold BackendSession.bind
  rw [if_pos hr, hf]

theorem BackendSession.bind_already (reach : String → Bool) (bs : BackendSession)
    (w : World) (uid : String) (hr : reach bs.frontendId = true) (s : Session)
    (hf : w.findSession bs.frontendId bs.id = some s) (u : String)
    (hu : s.uid = some u) :
    BackendSession.bind reach bs w uid
      = ⟨some .invalidBindState, w, bs, [⟨bs.frontendId, "bind"⟩]⟩ := by
  unfold BackendSession.bind
  rw [if_pos hr, hf]
  simp [hu]

theorem BackendSession.bind_ok (reach : String → Bool) (bs : BackendSession)
    (w : World) (uid : String) (hr : reach bs.frontendId = true) (s : Session)
    (hf : w.findSession bs.frontendId bs.id = some s) (hu : s.uid = none) :
    BackendSession.bind reach bs w uid
      = ⟨none,
         w.updateSession bs.frontendId bs.id (fun t => { t with uid := some uid }),
         { bs with uid := some uid }, [⟨bs.frontendId, "bind"⟩]⟩ := by
  unfold BackendSession.bind
  rw [if_pos hr, hf]
  simp [hu]

theorem BackendSession.unbind_unreach (reach : String → Bool) (bs : BackendSession)
    (w : World) (uid : String) (hr : reach bs.frontendId = false) :
    BackendSession.unbind reach bs w uid
      = ⟨some .remoteUnreachable, w, bs, [⟨bs.frontendId, "unbind"⟩]⟩ := by
  unfold BackendSession.unbind
  rw [if_neg (by simp [hr])]

theorem BackendSession.unbind_notfound (reach : String → Bool) (bs : BackendSession)
    (w : World) (uid : String) (hr : reach bs.frontendId = true)
    (hf : w.findSession bs.frontendId bs.id = none) :
    BackendSession.unbind reach bs w uid
      = ⟨some .sessionNotFound, w, bs, [⟨bs.frontendId, "unbind"⟩]⟩ := by
  unfold BackendSession.unbind
  rw [if_pos hr, hf]

theorem BackendSession.unbind_mismatch (reach : String → Bool) (bs : BackendSession)
    (w : World) (uid : String) (hr : reach bs.frontendId = true) (s : Session)
    (hf : w.findSession bs.frontendId bs.id = some s) (hu : ¬ s.uid = some uid) :
    BackendSession.unbind reach bs w uid
      = ⟨some .invalidBindState, w, bs, [⟨bs.frontendId, "unbind"⟩]⟩ := by
  unfold BackendSession.unbind
  rw [if_pos hr, hf]
  simp [hu]

theorem BackendSession.unbind_ok (reach : String → Bool) (bs : BackendSession)
    (w : World) (uid : String) (hr : reach bs.frontendId = true) (s : Session)
    (hf : w.findSession bs.frontendId bs.id = some s) (hu : s.uid = some uid) :
    BackendSession.unbind reach bs w uid
      = ⟨none,
         w.updateSession bs.frontendId bs.id (fun t => { t with uid := none }),
         { bs with uid := none }, [⟨bs.frontendId, "unbind"⟩]⟩ := by
  unfold BackendSession.unbind
  rw [if_pos hr, hf]
  simp [hu]

theorem BackendSession.bind_calls (reach : String → Bool) (bs : BackendSession)
    (w : World) (uid : String) :
    (BackendSession.bind reach bs w uid).calls = [⟨bs.frontendId, "bind"⟩] := by
  cases hr : reach bs.frontendId with
  | false => rw [BackendSession.bind_unreach reach bs w uid hr]
  | true =>
      cases hf : w.findSession bs.frontendId bs.id with
      | none => rw [BackendSession.bind_notfound reach bs w uid hr hf]
      | some s =>
          cases hu : s.uid with
          | none => rw [BackendSession.bind_ok reach bs w uid hr s hf hu]
          | some u => rw [BackendSession.bind_already reach bs w uid hr s hf u hu]

theorem BackendSession.unbind_calls (reach : String → Bool) (bs : BackendSession)
    (w : World) (uid : String) :
    (BackendSession.unbind reach bs w uid).calls = [⟨bs.frontendId, "unbind"⟩] := by
  cases hr : reach bs.frontendId with
  | false => rw [BackendSession.unbind_unreach reach bs w uid hr]
  | true =>
      cases hf : w.findSession bs.frontendId bs.id with
      | none => rw [BackendSession.unbind_notfound reach bs w uid hr hf]
      | some s =>
          by_cases hu : s.uid = some uid
          · rw [BackendSession.unbind_ok reach bs w uid hr s hf hu]
          · rw [BackendSession.unbind_mismatch reach bs w uid hr s hf hu]

/-- Claim C2: BackendSession bind and unbind are not local-only — each issues
exactly one remote call to the owning frontend and, on success, the remote
Session's uid binding is updated as an immediate side effect (a fresh fetch
observes it without any push), unlike set, which issues no remote call and
leaves the distributed state unchanged. -/
theorem backendSession_bind_unbind_remote_effect (reach : String → Bool)
    (bs : BackendSession) (w : World) (uid k v : String) (s : Session) :
    (BackendSession.bind reach bs w uid).calls = [⟨bs.frontendId, "bind"⟩] ∧
    (BackendSession.unbind reach bs w uid).calls = [⟨bs.frontendId, "unbind"⟩] ∧
    (BackendSession.set bs w k v).calls = [] ∧
    (BackendSession.set bs w k v).world = w ∧
    (reach bs.frontendId = true → w.findSession bs.frontendId bs.id = some s →
      s.uid = none →
      (BackendSession.bind reach bs w uid).err = none ∧
      (BackendSession.bind reach bs w uid).bs.uid = some uid ∧
      ∃ bs', fetch (BackendSession.bind reach bs w uid).world bs.frontendId bs.id
          = some bs' ∧ bs'.uid = some uid) ∧
    (reach bs.frontendId = true → w.findSession bs.frontendId bs.id = some s →
      s.uid = some uid →
      (BackendSession.unbind reach bs w uid).err = none ∧
      (BackendSession.unbind reach bs w uid).bs.uid = none ∧
      ∃ bs', fetch (BackendSession.unbind reach bs w uid).world bs.frontendId bs.id
          = some bs' ∧ bs'.uid = none) := by
  refine ⟨BackendSession.bind_calls reach bs w uid,
    BackendSession.unbind_calls reach bs w uid, rfl, rfl, ?_, ?_⟩
  · intro hr hf hu
    rw [BackendSession.bind_ok reach bs w uid hr s hf hu]
    refine ⟨rfl, rfl, ?_⟩
    unfold fetch
    rw [findSession_updateSession w bs.frontendId bs.id
      (fun t => { t with uid := some uid }) (fun t => rfl), hf]
    exact ⟨_, rfl, rfl⟩
  · intro hr hf hu
    rw [BackendSession.unbind_ok reach bs w uid hr s hf hu]
    refine ⟨rfl, rfl, ?_⟩
    unfold fetch
    rw [findSession_updateSession w bs.frontendId bs.id
      (fun t => { t with uid := none }) (fun t => rfl), hf]
    exact ⟨_, rfl, rfl⟩

/-- Claim C3: set(key, value) mutates only the local copy — it reports no error,
issues no remote call, leaves the distributed state unchanged (so a fresh
BackendSession fetched for the same (frontendId, sid) never observes it),
while the local copy holds the new value. -/
theorem backendSession_set_local_only (bs : BackendSession) (w : World)
    (k v fid sid : String) :
    (BackendSession.set bs w k v).err = none ∧
    (BackendSession.set bs w k v).calls = [] ∧
    (BackendSession.set bs w k v).world = w ∧
    fetch (BackendSession.set bs w k v).world fid sid = fetch w fid sid ∧
    BackendSession.get (BackendSession.set bs w k v).bs k = some v := by
  refine ⟨rfl, rfl, rfl, rfl, ?_⟩
  simp [BackendSession.set, BackendSession.get, getAssoc_setAssoc_same]

/-- Modelled from the spec: the set-then-push round trip — mutate the local
copy, then push the single key to the owning frontend. -/
def setThenPush (reach : String → Bool) (bs : BackendSession) (w : World)
    (k v : String) : OpResult :=
  let r1 := BackendSession.set bs w k v
  BackendSession.push reach r1.bs r1.world k

/-- Claim C4: set(key, v) followed by a successful push(key) round-trips — a fresh
fetch of the same (frontendId, sid) afterwards reflects v for that key,
unconditionally overwriting whatever value the frontend previously held
(last-write-wins), while every other key keeps the frontend's value. -/
theorem backendSession_set_push_roundtrip (reach : String → Bool)
    (bs : BackendSession) (w : World) (k v : String) (s0 : Session)
    (hr : reach bs.frontendId = true)
    (hf : w.findSession bs.frontendId bs.id = some s0) :
    (setThenPush reach bs w k v).err = none ∧
    (∃ bs', fetch (setThenPush reach bs w k v).world bs.frontendId bs.id
        = some bs' ∧
      getAssoc bs'.settings k = some v ∧
      ∀ k', k' ≠ k → getAssoc bs'.settings k' = getAssoc s0.settings k') := by
  have hpush : setThenPush reach bs w k v
      = ⟨none,
         w.updateSession bs.frontendId bs.id
           (fun t => { t with settings := setAssoc t.settings k v }),
         { bs with settings := setAssoc bs.settings k v },
         [⟨bs.frontendId, "push"⟩]⟩ := by
    exact BackendSession.push_ok reach { bs with settings := setAssoc bs.settings k v }
      w k hr s0 hf v (getAssoc_setAssoc_same bs.settings k v)
  rw [hpush]
  refine ⟨rfl, ?_⟩
  unfold fetch
  rw [findSession_updateSession w bs.frontendId bs.id
    (fun t => { t with settings := setAssoc t.settings k v }) (fun t => rfl), hf]
  refine ⟨_, rfl, ?_, ?_⟩
  · exact getAssoc_setAssoc_same s0.settings k v
  · exact fun k' hk' => getAssoc_setAssoc_other s0.settings k k' v hk'

theorem BackendSession.push_err_frame (reach : String → Bool) (bs : BackendSession)
    (w : World) (k : String) (e : RemoteErr)
    (h : (BackendSession.push reach bs w k).err = some e) :
    (BackendSession.push reach bs w k).world = w ∧
    (BackendSession.push reach bs w k).bs = bs := by
  cases hr : reach bs.frontendId with
  | false => rw [BackendSession.push_unreach reach bs w k hr]; exact ⟨rfl, rfl⟩
  | true =>
      cases hf : w.findSession bs.frontendId bs.id with
      | none => rw [BackendSession.push_notfound reach bs w k hr hf]; exact ⟨rfl, rfl⟩
      | some s =>
          cases hv : getAssoc bs.settings k with
          | none =>
              rw [BackendSession.push_nokey reach bs w k hr s hf hv] at h
              exact absurd h (by simp)
          | some v =>
              rw [BackendSession.push_ok reach bs w k hr s hf v hv] at h
              exact absurd h (by simp)

theorem BackendSession.pushAll_err_frame (reach : String → Bool)
    (bs : BackendSession) (w : World) (e : RemoteErr)
    (h : (BackendSession.pushAll reach bs w).err = some e) :
    (BackendSession.pushAll reach bs w).world = w ∧
    (BackendSession.pushAll reach bs w).bs = bs := by
  cases hr : reach bs.frontendId with
  | false => rw [BackendSession.pushAll_unreach reach bs w hr]; exact ⟨rfl, rfl⟩
  | true =>
      cases hf : w.findSession bs.frontendId bs.id with
      | none => rw [BackendSession.pushAll_notfound reach bs w hr hf]; exact ⟨rfl, rfl⟩
      | some s =>
          rw [BackendSession.pushAll_ok reach bs w hr s hf] at h
          exact absurd h (by simp)

theorem BackendSession.bind_err_frame (reach : String → Bool) (bs : BackendSession)
    (w : World) (uid : String) (e : RemoteErr)
    (h : (BackendSession.bind reach bs w uid).err = some e) :
    (BackendSession.bind reach bs w uid).world = w ∧
    (BackendSession.bind reach bs w uid).bs = bs := by
  cases hr : reach bs.frontendId with
  | false => rw [BackendSession.bind_unreach reach bs w uid hr]; exact ⟨rfl, rfl⟩
  | true =>
      cases hf : w.findSession bs.frontendId bs.id with
      | none => rw [BackendSession.bind_notfound reach bs w uid hr hf]; exact ⟨rfl, rfl⟩
      | some s =>
          cases hu : s.uid with
          | none =>
              rw [BackendSession.bind_ok reach bs w uid hr s hf hu] at h
              exact absurd h (by simp)
          | some u =>
              rw [BackendSession.bind_already reach bs w uid hr s hf u hu]
              exact ⟨rfl, rfl⟩

theorem BackendSession.unbind_err_frame (reach : String → Bool)
    (bs : BackendSession) (w : World) (uid : String) (e : RemoteErr)
    (h : (BackendSession.unbind reach bs w uid).err = some e) :
    (BackendSession.unbind reach bs w uid).world = w ∧
    (BackendSession.unbind reach bs w uid).bs = bs := by
  cases hr : reach bs.frontendId with
  | false => rw [BackendSession.unbind_unreach reach bs w uid hr]; exact ⟨rfl, rfl⟩
  | true =>
      cases hf : w.findSession bs.frontendId bs.id with
      | none =>
          rw [BackendSession.unbind_notfound reach bs w uid hr hf]; exact ⟨rfl, rfl⟩
      | some s =>
          by_cases hu : s.uid = some uid
          · rw [BackendSession.unbind_ok reach bs w uid hr s hf hu] at h
            exact absurd h (by simp)
          · rw [BackendSession.unbind_mismatch reach bs w uid hr s hf hu]
            exact ⟨rfl, rfl⟩

/-- Claim C5: every remote-calling BackendSession operation (push, pushAll, bind,
unbind) surfaces a remote failure through the callback's error argument and,
when it fails, leaves both the distributed state and the local copy exactly
as they were — in particular a failed pushAll applies none of its keys. -/
theorem backendSession_remote_failure_atomic (reach : String → Bool)
    (bs : BackendSession) (w : World) (k uid : String) (e : RemoteErr) :
    ((BackendSession.push reach bs w k).err = some e →
      (BackendSession.push reach bs w k).world = w ∧
      (BackendSession.push reach bs w k).bs = bs) ∧
    ((BackendSession.pushAll reach bs w).err = some e →
      (BackendSession.pushAll reach bs w).world = w ∧
      (BackendSession.pushAll reach bs w).bs = bs) ∧
    ((BackendSession.bind reach bs w uid).err = some e →
      (BackendSession.bind reach bs w uid).world = w ∧
      (BackendSession.bind reach bs w uid).bs = bs) ∧
    ((BackendSession.unbind reach bs w uid).err = some e →
      (BackendSession.unbind reach bs w uid).world = w ∧
      (BackendSession.unbind reach bs w uid).bs = bs) ∧
    (reach bs.frontendId = false →
      (BackendSession.push reach bs w k).err = some .remoteUnreachable ∧
      (BackendSession.pushAll reach bs w).err = some .remoteUnreachable ∧
      (BackendSession.bind reach bs w uid).err = some .remoteUnreachable ∧
      (BackendSession.unbind reach bs w uid).err = some .remoteUnreachable) ∧
    (reach bs.frontendId = true → w.findSession bs.frontendId bs.id = none →
      (BackendSession.push reach bs w k).err = some .sessionNotFound ∧
      (BackendSession.pushAll reach bs w).err = some .sessionNotFound ∧
      (BackendSession.bind reach bs w uid).err = some .sessionNotFound ∧
      (BackendSession.unbind reach bs w uid).err = some .sessionNotFound) := by
  refine ⟨BackendSession.push_err_frame reach bs w k e,
    BackendSession.pushAll_err_frame reach bs w e,
    BackendSession.bind_err_frame reach bs w uid e,
    BackendSession.unbind_err_frame reach bs w uid e, ?_, ?_⟩
  · intro hr
    rw [BackendSession.push_unreach reach bs w k hr,
      BackendSession.pushAll_unreach reach bs w hr,
      BackendSession.bind_unreach reach bs w uid hr,
      BackendSession.unbind_unreach reach bs w uid hr]
    exact ⟨rfl, rfl, rfl, rfl⟩
  · intro hr hf
    rw [BackendSession.push_notfound reach bs w k hr hf,
      BackendSession.pushAll_notfound reach bs w hr hf,
      BackendSession.bind_notfound reach bs w uid hr hf,
      BackendSession.unbind_notfound reach bs w uid hr hf]
    exact ⟨rfl, rfl, rfl, rfl⟩

/-- Claim C8: frontend Session.bind fails with InvalidBindState when a uid is
already bound, unbind fails when the given uid does not match the bound one,
and after a successful bind the uid-based lookup returns that session until
unbind or disconnect removes it. -/
theorem session_bind_unbind_lookup (sessions : List Session) (sid uid : String)
    (s : Session) (hf : sessions.find? (fun t => decide (t.id = sid)) = some s) :
    (∀ u, s.uid = some u → serviceBind sessions sid uid = .error .invalidBindState) ∧
    (∀ u, s.uid = some u → u ≠ uid →
      serviceUnbind sessions sid uid = .error .invalidBindState) ∧
    (s.uid = none →
      ∃ l', serviceBind sessions sid uid = .ok l' ∧
        { s with uid := some uid } ∈ getByUid l' uid ∧
        (∃ l'', serviceUnbind l' sid uid = .ok l'' ∧
          ∀ t ∈ getByUid l'' uid, t.id ≠ sid) ∧
        (∀ t ∈ getByUid (serviceDisconnect l' sid) uid, t.id ≠ sid)) := by
  have hsid : s.id = sid := by
    have hp := List.find?_some hf
    simpa using hp
  refine ⟨?_, ?_, ?_⟩
  · intro u hu
    unfold serviceBind
    rw [hf]
    simp [Session.bind, hu]
  · intro u hu hne
    unfold serviceUnbind
    rw [hf]
    have hnu : ¬ s.uid = some uid := by
      rw [hu]
      simp [hne]
    simp [Session.unbind, hnu]
  · intro hnil
    have hbind : serviceBind sessions sid uid
        = .ok (sessions.map (fun t => if t.id = sid then { s with uid := some uid }
            else t)) := by
      unfold serviceBind
      rw [hf]
      simp [Session.bind, hnil]
    refine ⟨_, hbind, ?_, ?_, ?_⟩
    · have hsmem : s ∈ sessions := List.mem_of_find?_eq_some hf
      have hgs : (fun t => if t.id = sid then { s with uid := some uid } else t) s
          = { s with uid := some uid } := by simp [hsid]
      exact List.mem_filter.mpr ⟨List.mem_map.mpr ⟨s, hsmem, hgs⟩, by simp⟩
    · have hfind' : (sessions.map (fun t => if t.id = sid then { s with uid := some uid }
          else t)).find? (fun t => decide (t.id = sid))
          = some { s with uid := some uid } := by
        rw [find?_map_pres]
        · rw [hf]
          simp only [Option.map_some']
          rw [if_pos hsid]
        · intro t
          by_cases h : t.id = sid
          · simp [h, hsid]
          · simp [h]
      have hunbind : serviceUnbind (sessions.map (fun t => if t.id = sid
            then { s with uid := some uid } else t)) sid uid
          = .ok ((sessions.map (fun t => if t.id = sid then { s with uid := some uid }
              else t)).map (fun t => if t.id = sid then { s with uid := none }
              else t)) := by
        unfold serviceUnbind
        rw [hfind']
        simp [Session.unbind]
      refine ⟨_, hunbind, ?_⟩
      intro t ht
      obtain ⟨htmem, htuid⟩ := List.mem_filter.mp ht
      simp only [decide_eq_true_eq] at htuid
      rw [List.map_map] at htmem
      obtain ⟨x, hx, hxt⟩ := List.mem_map.mp htmem
      intro htid
      by_cases hxid : x.id = sid
      · rw [← hxt] at htuid
        simp [hxid, hsid] at htuid
      · rw [← hxt] at htid
        simp [hxid] at htid
    · intro t ht
      obtain ⟨htmem, _⟩ := List.mem_filter.mp ht
      obtain ⟨_, htid⟩ := List.mem_filter.mp htmem
      simpa using htid

/-- A concrete channel for the spec's two-frontend scenario: room1 with u1 on
frontend f1 and u2 on frontend f2. -/
def chW : Channel := ⟨"room1", false, [⟨"u1", "f1"⟩, ⟨"u2", "f2"⟩]⟩

/-- A failure oracle under which exactly frontend f2's push RPC fails. -/
def failW : String → Bool := fun f => decide (f = "f2")

/-- A concrete frontend session: sid1 on f1, unbound, one settings key. -/
def sessW : Session := ⟨"sid1", "f1", none, [("gold", "10")]⟩

/-- A concrete world with one frontend process f1 owning sessW. -/
def worldW : World := ⟨[⟨"f1", [sessW]⟩]⟩

/-- The backend-side local copy of sessW. -/
def bsW : BackendSession := ⟨"sid1", "f1", none, [("gold", "10")]⟩

/-- A reachability oracle under which every frontend is reachable. -/
def reachW : String → Bool := fun _ => true

/-- A reachability oracle under which no frontend is reachable. -/
def downW : String → Bool := fun _ => false

/-- The spec's two-frontend scenario: pushMessage issues exactly two remote
push calls, one to f1 with uids [u1] and one to f2 with uids [u2]. -/
theorem pushMessage_two_frontends_calls :
    groupCalls "chat" "hi" chW.members
      = [⟨"f1", "chat", "hi", ["u1"]⟩, ⟨"f2", "chat", "hi", ["u2"]⟩] := by decide

/-- The spec's partial-failure scenario: with f2's push RPC failing, the
aggregated error names exactly f2 while f1's partition stays delivered. -/
theorem pushMessage_partial_failure_names_f2 :
    (chW.pushMessage failW "chat" "hi").err = some ["f2"] ∧
    (chW.pushMessage failW "chat" "hi").delivered
      = [⟨"f1", "chat", "hi", ["u1"]⟩] := by decide

/-- Witness for C1 at the concrete two-frontend channel with f2 failing. -/
theorem channel_pushMessage_partitions_witness :
    chW.members ≠ [] ∧
    (((groupCalls "chat" "hi" chW.members).map PushCall.target).Nodup ∧
    (∀ f, f ∈ (groupCalls "chat" "hi" chW.members).map PushCall.target
      ↔ f ∈ chW.members.map Member.sid) ∧
    (∀ c ∈ groupCalls "chat" "hi" chW.members,
      c.uids = (chW.members.filter (fun m => decide (m.sid = c.target))).map Member.uid
        ∧ c.route = "chat" ∧ c.msg = "hi") ∧
    ((chW.pushMessage failW "chat" "hi").err = none
      ↔ ∀ c ∈ groupCalls "chat" "hi" chW.members, failW c.target = false) ∧
    (∀ failed, (chW.pushMessage failW "chat" "hi").err = some failed →
      failed = ((groupCalls "chat" "hi" chW.members).filter
          (fun c => failW c.target)).map PushCall.target ∧ failed ≠ []) ∧
    ((chW.pushMessage failW "chat" "hi").delivered
      = (groupCalls "chat" "hi" chW.members).filter (fun c => !failW c.target))) :=
  ⟨by decide, channel_pushMessage_partitions chW failW "chat" "hi" (by decide)⟩

/-- Witness for C2 at the concrete one-frontend world. -/
theorem backendSession_bind_unbind_remote_effect_witness :
    (BackendSession.bind reachW bsW worldW "u1").calls = [⟨bsW.frontendId, "bind"⟩] ∧
    (BackendSession.unbind reachW bsW worldW "u1").calls
      = [⟨bsW.frontendId, "unbind"⟩] ∧
    (BackendSession.set bsW worldW "gold" "99").calls = [] ∧
    (BackendSession.set bsW worldW "gold" "99").world = worldW ∧
    (reachW bsW.frontendId = true →
      worldW.findSession bsW.frontendId bsW.id = some sessW → sessW.uid = none →
      (BackendSession.bind reachW bsW worldW "u1").err = none ∧
      (BackendSession.bind reachW bsW worldW "u1").bs.uid = some "u1" ∧
      ∃ bs', fetch (BackendSession.bind reachW bsW worldW "u1").world
          bsW.frontendId bsW.id = some bs' ∧ bs'.uid = some "u1") ∧
    (reachW bsW.frontendId = true →
      worldW.findSession bsW.frontendId bsW.id = some sessW →
      sessW.uid = some "u1" →
      (BackendSession.unbind reachW bsW worldW "u1").err = none ∧
      (BackendSession.unbind reachW bsW worldW "u1").bs.uid = none ∧
      ∃ bs', fetch (BackendSession.unbind reachW bsW worldW "u1").world
          bsW.frontendId bsW.id = some bs' ∧ bs'.uid = none) :=
  backendSession_bind_unbind_remote_effect reachW bsW worldW "u1" "gold" "99" sessW

/-- Witness for C3 at the concrete one-frontend world. -/
theorem backendSession_set_local_only_witness :
    (BackendSession.set bsW worldW "gold" "99").err = none ∧
    (BackendSession.set bsW worldW "gold" "99").calls = [] ∧
    (BackendSession.set bsW worldW "gold" "99").world = worldW ∧
    fetch (BackendSession.set bsW worldW "gold" "99").world "f1" "sid1"
      = fetch worldW "f1" "sid1" ∧
    BackendSession.get (BackendSession.set bsW worldW "gold" "99").bs "gold"
      = some "99" :=
  backendSession_set_local_only bsW worldW "gold" "99" "f1" "sid1"

/-- Witness for C4 at the concrete one-frontend world. -/
theorem backendSession_set_push_roundtrip_witness :
    reachW bsW.frontendId = true ∧
    worldW.findSession bsW.frontendId bsW.id = some sessW ∧
    ((setThenPush reachW bsW worldW "gold" "99").err = none ∧
    (∃ bs', fetch (setThenPush reachW bsW worldW "gold" "99").world
        bsW.frontendId bsW.id = some bs' ∧
      getAssoc bs'.settings "gold" = some "99" ∧
      ∀ k', k' ≠ "gold" → getAssoc bs'.settings k' = getAssoc sessW.settings k')) :=
  ⟨by decide, by decide,
    backendSession_set_push_roundtrip reachW bsW worldW "gold" "99" sessW
      (by decide) (by decide)⟩

/-- Witness for C5 with every frontend unreachable. -/
theorem backendSession_remote_failure_atomic_witness :
    ((BackendSession.push downW bsW worldW "gold").err = some .remoteUnreachable →
      (BackendSession.push downW bsW worldW "gold").world = worldW ∧
      (BackendSession.push downW bsW worldW "gold").bs = bsW) ∧
    ((BackendSession.pushAll downW bsW worldW).err = some .remoteUnreachable →
      (BackendSession.pushAll downW bsW worldW).world = worldW ∧
      (BackendSession.pushAll downW bsW worldW).bs = bsW) ∧
    ((BackendSession.bind downW bsW worldW "u1").err = some .remoteUnreachable →
      (BackendSession.bind downW bsW worldW "u1").world = worldW ∧
      (BackendSession.bind downW bsW worldW "u1").bs = bsW) ∧
    ((BackendSession.unbind downW bsW worldW "u1").err = some .remoteUnreachable →
      (BackendSession.unbind downW bsW worldW "u1").world = worldW ∧
      (BackendSession.unbind downW bsW worldW "u1").bs = bsW) ∧
    (downW bsW.frontendId = false →
      (BackendSession.push downW bsW worldW "gold").err = some .remoteUnreachable ∧
      (BackendSession.pushAll downW bsW worldW).err = some .remoteUnreachable ∧
      (BackendSession.bind downW bsW worldW "u1").err = some .remoteUnreachable ∧
      (BackendSession.unbind downW bsW worldW "u1").err = some .remoteUnreachable) ∧
    (downW bsW.frontendId = true → worldW.findSession bsW.frontendId bsW.id = none →
      (BackendSession.push downW bsW worldW "gold").err = some .sessionNotFound ∧
      (BackendSession.pushAll downW bsW worldW).err = some .sessionNotFound ∧
      (BackendSession.bind downW bsW worldW "u1").err = some .sessionNotFound ∧
      (BackendSession.unbind downW bsW worldW "u1").err = some .sessionNotFound) :=
  backendSession_remote_failure_atomic downW bsW worldW "gold" "u1" .remoteUnreachable

/-- Witness for C6 at the concrete channel. -/
theorem channel_membership_unique_reassign_witness :
    chW.noDupUids ∧
    (((chW.add "u1" "f3").2).noDupUids ∧
    ((chW.leave "u1" "f1").2).noDupUids ∧
    (chW.destroyed = false → "f4" ≠ "" → "f5" ≠ "" →
      (((chW.add "u1" "f4").2.add "u1" "f5").2).members.filter
          (fun m => decide (m.uid = "u1")) = [⟨"u1", "f5"⟩] ∧
      (((chW.add "u1" "f4").2.add "u1" "f5").2).noDupUids)) :=
  ⟨by unfold Channel.noDupUids; decide,
    channel_membership_unique_reassign chW "u1" "f3" "f1" "f4" "f5"
      (by unfold Channel.noDupUids; decide)⟩

/-- Witness for C7: u1 is stored under f1, so leaving under the stale
frontend f9 fails and leaves the channel unchanged. -/
theorem channel_leave_requires_matching_frontend_witness :
    chW.getMember "u1" = some ⟨"u1", "f1"⟩ ∧
    (((Member.mk "u1" "f1").sid ≠ "f9" → chW.leave "u1" "f9" = (false, chW)) ∧
    ((Member.mk "u1" "f1").sid = "f9" → (chW.leave "u1" "f9").1 = true ∧
      ((chW.leave "u1" "f9").2).members
        = chW.members.filter (fun x => decide (x.uid ≠ "u1")))) :=
  ⟨by decide,
    channel_leave_requires_matching_frontend chW "u1" "f9" ⟨"u1", "f1"⟩ (by decide)⟩

/-- Witness for C10 at the concrete channel. -/
theorem channel_getMember_spec_witness :
    (chW.destroyed = false → "f7" ≠ "" →
      ((chW.add "u2" "f7").2).getMember "u2" = some ⟨"u2", "f7"⟩) ∧
    ("u2" ∉ chW.members.map Member.uid → chW.getMember "u2" = none) ∧
    (∀ m, chW.getMember "u2" = some m → m.sid = "f7" →
      ((chW.leave "u2" "f7").2).getMember "u2" = none) :=
  channel_getMember_spec chW "u2" "f7"

/-- Witness for C8 at a one-session registry. -/
theorem session_bind_unbind_lookup_witness :
    [sessW].find? (fun t => decide (t.id = "sid1")) = some sessW ∧
    ((∀ u, sessW.uid = some u →
      serviceBind [sessW] "sid1" "u1" = .error .invalidBindState) ∧
    (∀ u, sessW.uid = some u → u ≠ "u1" →
      serviceUnbind [sessW] "sid1" "u1" = .error .invalidBindState) ∧
    (sessW.uid = none →
      ∃ l', serviceBind [sessW] "sid1" "u1" = .ok l' ∧
        { sessW with uid := some "u1" } ∈ getByUid l' "u1" ∧
        (∃ l'', serviceUnbind l' "sid1" "u1" = .ok l'' ∧
          ∀ t ∈ getByUid l'' "u1", t.id ≠ "sid1") ∧
        (∀ t ∈ getByUid (serviceDisconnect l' "sid1") "u1", t.id ≠ "sid1"))) :=
  ⟨by decide, session_bind_unbind_lookup [sessW] "sid1" "u1" sessW (by decide)⟩

/-- Witness for C9 with one resolvable entry and one unresolvable entry. -/
theorem pushMessageByUids_drops_unresolvable_witness :
    (pushMessageByUids failW "chat" "hi" [⟨"u1", some "f1"⟩]
      = runPush failW (groupCalls "chat" "hi" (resolveEntries [⟨"u1", some "f1"⟩]))) ∧
    ((UidSid.mk "u3" none).sid = none →
      resolveEntries (⟨"u3", none⟩ :: [⟨"u1", some "f1"⟩])
          = resolveEntries [⟨"u1", some "f1"⟩] ∧
      pushMessageByUids failW "chat" "hi" (⟨"u3", none⟩ :: [⟨"u1", some "f1"⟩])
        = pushMessageByUids failW "chat" "hi" [⟨"u1", some "f1"⟩]) ∧
    (∀ (nm : String) (d : Bool) (members : List Member),
      pushMessageByUids failW "chat" "hi" (members.map (fun m => ⟨m.uid, some m.sid⟩))
        = Channel.pushMessage ⟨nm, d, members⟩ failW "chat" "hi") :=
  pushMessageByUids_drops_unresolvable failW "chat" "hi" [⟨"u1", some "f1"⟩] ⟨"u3", none⟩

end Pomelo
